import Mathlib

/-
  Verification of the PySpectrogram signal-processing core (AudioProcessor.py)
  against its natural-language specification.

  The numeric model idealises IEEE floats as exact rationals (settings,
  sample times) and exact reals (sample values, taper coefficients,
  spectra).  The two float infinities produced by numpy are modelled
  explicitly by the scalar type RFloat below.
-/

namespace PySpectrogram

/-! ## Numeric helpers -/

/-- Model of `np.round` on a real (rational) value: round half to even. -/
def roundHE (q : ℚ) : ℤ :=
  if q - ⌊q⌋ < 1/2 then ⌊q⌋
  else if 1/2 < q - ⌊q⌋ then ⌊q⌋ + 1
  else if ⌊q⌋ % 2 = 0 then ⌊q⌋ else ⌊q⌋ + 1

/-- The spec's phrase "rounded up to the next even integer". -/
def roundUpToEven (z : ℤ) : ℤ := if Even z then z else z + 1

/-- Numpy boolean-mask indexing `xs[mask]` (masks and arrays of equal length
in all uses in the source). -/
def maskFilter {α : Type} : List Bool → List α → List α
  | true :: ms, x :: xs => x :: maskFilter ms xs
  | false :: ms, _ :: xs => maskFilter ms xs
  | _, _ => []

/-- Python tail slice `buf[-N:]` (for an `int` N). -/
def pyTail {α : Type} (buf : List α) (N : ℤ) : List α :=
  if N ≤ 0 then buf.drop (min (Int.toNat (-N)) buf.length)
  else buf.drop (buf.length - Int.toNat N)

/-! ## Derived spectral settings (AudioProcessor.calc_settings)

`self.N = int(np.round(self.fs*self.fftwindow)); if self.N%2: self.N += 1` -/

/-- FFT length derived by `calc_settings`. -/
def calcN (fs : ℕ) (fftwindow : ℚ) : ℤ :=
  let N0 := roundHE ((fs : ℚ) * fftwindow)
  if N0 % 2 = 0 then N0 else N0 + 1

/-- Frequency resolution derived by `calc_settings`: `self.df = self.fs/self.N`. -/
def calcDf (fs : ℕ) (fftwindow : ℚ) : ℚ := (fs : ℚ) / (calcN fs fftwindow : ℚ)

/-- Source `self.freqs_all`: bin-to-frequency map
`self.df * n if n < self.N / 2 else self.df * (n - self.N)`. -/
def freqs_all (N : ℤ) (df : ℚ) (n : ℕ) : ℚ :=
  if (n : ℚ) < (N : ℚ) / 2 then df * n else df * ((n : ℚ) - (N : ℚ))

/-- Source `self.keepind = np.greater_equal(self.freqs_all, 0)`. -/
def keepList (N : ℤ) (df : ℚ) : List Bool :=
  (List.range (Int.toNat N)).map (fun n => decide (0 ≤ freqs_all N df n))

/-- Source `self.freqs = self.freqs_all[self.keepind]`. -/
def freqsList (N : ℤ) (df : ℚ) : List ℚ :=
  maskFilter (keepList N df) ((List.range (Int.toNat N)).map (freqs_all N df))

/-- Model of `scipy.signal.tukey(M, alpha)` (cosine-tapered window). -/
noncomputable def tukey (M : ℕ) (alpha : ℚ) : List ℝ :=
  if M = 0 then []
  else if M = 1 then [1]
  else if alpha ≤ 0 then List.replicate M 1
  else
    (List.range M).map (fun n : ℕ =>
      let a : ℝ := min (alpha : ℝ) 1
      let x : ℝ := (n : ℝ) / ((M : ℝ) - 1)
      if x < a / 2 then (1 + Real.cos (Real.pi * (2 * x / a - 1))) / 2
      else if x ≤ 1 - a / 2 then 1
      else (1 + Real.cos (Real.pi * (2 * x / a - 2 / a + 1))) / 2)

/-! ## Worker settings state -/

/-- The fields of `AudioProcessor` that the estimator and the settings
recomputation read and write. -/
structure Proc where
  fs : ℕ
  fftwindow : ℚ
  dt : ℚ
  alpha : ℚ
  N : ℤ
  df : ℚ
  taper : List ℝ
  taperlen : ℕ
  keepind : List Bool
  freqs : List ℚ

/-- Source `AudioProcessor.calc_settings`: re-derives N, the taper (for nonzero
alpha; `self.taperlen = 0` otherwise and `self.taper` is left alone),
df, `freqs_all`, `keepind` and `freqs`. -/
noncomputable def calc_settings (p : Proc) : Proc :=
  { p with
    N := calcN p.fs p.fftwindow,
    taper := if 0 < p.alpha then tukey (Int.toNat (calcN p.fs p.fftwindow)) p.alpha else p.taper,
    taperlen := if 0 < p.alpha then (tukey (Int.toNat (calcN p.fs p.fftwindow)) p.alpha).length else 0,
    df := calcDf p.fs p.fftwindow,
    keepind := keepList (calcN p.fs p.fftwindow) (calcDf p.fs p.fftwindow),
    freqs := freqsList (calcN p.fs p.fftwindow) (calcDf p.fs p.fftwindow) }

/-- Source `AudioProcessor.changethresholds`: upper-clamp `fftwindow` at 1,
replace `dt`, clamp `alpha` into [0,1], then recompute settings. -/
noncomputable def changethresholds (p : Proc) (fftwindow dt alpha : ℚ) : Proc :=
  calc_settings
    { p with
      fftwindow := if fftwindow ≤ 1 then fftwindow else 1,
      dt := dt,
      alpha := if 1 < alpha then 1 else if alpha < 0 then 0 else alpha }

/-! ## C1 -/

lemma calcN_eq_roundUpToEven (fs : ℕ) (w : ℚ) :
    calcN fs w = roundUpToEven (roundHE ((fs : ℚ) * w)) := by
  unfold calcN roundUpToEven
  rcases Int.emod_two_eq (roundHE ((fs : ℚ) * w)) with h | h <;>
    simp [h, Int.even_iff]

lemma calcN_even (fs : ℕ) (w : ℚ) : Even (calcN fs w) := by
  unfold calcN
  rcases Int.emod_two_eq (roundHE ((fs : ℚ) * w)) with h | h
  · rw [if_pos h]; exact Int.even_iff.mpr h
  · rw [if_neg (by omega)]; exact Int.even_iff.mpr (by omega)

/-- C1: for every sample rate and window length, the FFT length derived by
`calc_settings` equals `np.round(fs*fftwindow)` rounded up to the next even
integer (in particular it is even), and the derived frequency resolution
equals `fs/N` exactly. -/
theorem calc_settings_N_roundUpEven_df_exact (p : Proc) :
    Even (calc_settings p).N
    ∧ (calc_settings p).N = roundUpToEven (roundHE ((p.fs : ℚ) * p.fftwindow))
    ∧ (calc_settings p).df = (p.fs : ℚ) / (((calc_settings p).N : ℤ) : ℚ) := by
  refine ⟨?_, ?_, ?_⟩
  · simpa [calc_settings] using calcN_even p.fs p.fftwindow
  · simpa [calc_settings] using calcN_eq_roundUpToEven p.fs p.fftwindow
  · simp [calc_settings, calcDf]

/-! ## C5 -/

/-- C5 counterexample: `changethresholds` does not clamp the window length
from below; the argument −1 is stored unchanged, so the stored window
length does not lie in (0,1]. -/
theorem changethresholds_no_lower_clamp_cex :
    (changethresholds
        { fs := 8, fftwindow := 1, dt := 1, alpha := 0, N := 0, df := 0,
          taper := [], taperlen := 0, keepind := [], freqs := [] }
        (-1) 1 (1/2)).fftwindow = -1
    ∧ ¬ (0 : ℚ) < (changethresholds
        { fs := 8, fftwindow := 1, dt := 1, alpha := 0, N := 0, df := 0,
          taper := [], taperlen := 0, keepind := [], freqs := [] }
        (-1) 1 (1/2)).fftwindow := by
  have h : (changethresholds
      { fs := 8, fftwindow := 1, dt := 1, alpha := 0, N := 0, df := 0,
        taper := [], taperlen := 0, keepind := [], freqs := [] }
      (-1) 1 (1/2)).fftwindow = -1 := by
    norm_num [changethresholds, calc_settings]
  exact ⟨h, by rw [h]; norm_num⟩

/-- C5 (amended): for arbitrary arguments, the stored window length equals
`min fftwindow 1` (clamped from above only), the stored alpha lies in
[0,1], and the stored dt equals the argument unchanged. -/
theorem changethresholds_clamps (p : Proc) (w d a : ℚ) :
    (changethresholds p w d a).fftwindow = min w 1
    ∧ 0 ≤ (changethresholds p w d a).alpha
    ∧ (changethresholds p w d a).alpha ≤ 1
    ∧ (changethresholds p w d a).dt = d := by
  refine ⟨?_, ?_, ?_, ?_⟩
  · simp [changethresholds, calc_settings, min_def]
  · simp only [changethresholds, calc_settings]
    split_ifs <;> linarith
  · simp only [changethresholds, calc_settings]
    split_ifs <;> linarith
  · simp [changethresholds, calc_settings]

/-! ## Spectral estimator (AudioProcessor.dofft)

Numpy float semantics for the spectra pipeline: a scalar is either a
finite real, one of the two infinities, or nan. -/

/-- A numpy float value in the spectra pipeline. -/
inductive RFloat where
  | nan : RFloat
  | neginf : RFloat
  | val : ℝ → RFloat
  | posinf : RFloat

/-- Model of `np.isinf` on one element. -/
def np_isinf : RFloat → Bool
  | RFloat.neginf => true
  | RFloat.posinf => true
  | _ => false

/-- Source `spectra[np.isinf(spectra)] = 1.0E-8` applied elementwise. -/
noncomputable def replaceInf (v : RFloat) : RFloat :=
  if np_isinf v then RFloat.val (1 / 100000000) else v

/-- Model of `np.log10` on one element: log10(+inf) = +inf, log10(0) = -inf,
log10 of a negative value or of nan is nan. -/
noncomputable def np_log10 : RFloat → RFloat
  | RFloat.nan => RFloat.nan
  | RFloat.neginf => RFloat.nan
  | RFloat.posinf => RFloat.posinf
  | RFloat.val x =>
    if x < 0 then RFloat.nan
    else if x = 0 then RFloat.neginf
    else RFloat.val (Real.log x / Real.log 10)

/-- Model of `np.fft.fft`: the discrete Fourier transform of the sample list,
bin `k`. -/
noncomputable def dft (x : List ℝ) (k : ℕ) : ℂ :=
  ∑ n ∈ Finset.range x.length,
    ((x.getD n 0 : ℝ) : ℂ) *
      Complex.exp (-2 * Real.pi * Complex.I * (k : ℂ) * (n : ℂ) / (x.length : ℂ))

/-- Numpy elementwise product of two equal-length arrays. -/
def zipMul (a b : List ℝ) : List ℝ := (a.zip b).map (fun q => q.1 * q.2)

/-- First stage of `dofft`: for nonzero alpha, if the input length differs
from the cached `taperlen`, `self.taper` is overwritten with a freshly
computed taper (and `taperlen` is left stale); otherwise the state is
untouched. -/
noncomputable def taperAdjust (p : Proc) (pcmdata : List ℝ) : Proc :=
  if 0 < p.alpha then
    (if pcmdata.length = p.taperlen then p
     else { p with taper := tukey pcmdata.length p.alpha })
  else p

/-- Source `pcmdata = pcmdata*self.taper` (only for nonzero alpha), using the
possibly just-overwritten `self.taper`. -/
noncomputable def taperApply (p : Proc) (pcmdata : List ℝ) : List ℝ :=
  if 0 < p.alpha then zipMul pcmdata (taperAdjust p pcmdata).taper else pcmdata

/-- Source `spectra = np.abs(np.fft.fft(pcmdata)**2)/self.df`. -/
noncomputable def psdList (df : ℚ) (pcm1 : List ℝ) : List RFloat :=
  (List.range pcm1.length).map (fun k =>
    RFloat.val (Complex.abs ((dft pcm1 k) ^ 2) / (df : ℝ)))

/-- Source `AudioProcessor.dofft`: taper, PSD, infinity replacement, boolean-mask
bin selection, log10.  Returns the updated worker state and the spectra. -/
noncomputable def dofft (p : Proc) (pcmdata : List ℝ) : Proc × List RFloat :=
  (taperAdjust p pcmdata,
   (maskFilter p.keepind
      ((psdList p.df (taperApply p pcmdata)).map replaceInf)).map np_log10)

/-! ## Helper lemmas for the estimator -/

lemma tukey_length (M : ℕ) (a : ℚ) : (tukey M a).length = M := by
  unfold tukey
  split_ifs with h0 h1 h2
  · simp [h0]
  · simp [h1]
  · simp
  · rw [List.length_map, List.length_range]

lemma maskFilter_length {α : Type} (mask : List Bool) :
    ∀ xs : List α, mask.length = xs.length →
      (maskFilter mask xs).length = mask.count true := by
  induction mask with
  | nil => intro xs h; simp [maskFilter]
  | cons b ms ih =>
    intro xs h
    cases xs with
    | nil => simp at h
    | cons x xs =>
      cases b
      · simpa [maskFilter, List.count_cons] using ih xs (by simpa using h)
      · simpa [maskFilter, List.count_cons] using ih xs (by simpa using h)

lemma count_true_range_map_lt (L m : ℕ) :
    (((List.range L).map (fun n => decide (n < m))).count true) = min m L := by
  induction L with
  | zero => simp
  | succ L ih =>
    rw [List.range_succ, List.map_append, List.count_append, ih]
    by_cases h : L < m
    · simp [h]; omega
    · simp [h]; omega

lemma keepList_eq_first_half {N : ℤ} {df : ℚ}
    (hN : Even N) (h0 : 0 < N) (hdf : 0 < df) :
    keepList N df
      = (List.range (Int.toNat N)).map (fun n => decide (n < Int.toNat N / 2)) := by
  obtain ⟨k, hk⟩ : ∃ k : ℕ, Int.toNat N = 2 * k := by
    obtain ⟨m, hm⟩ := hN
    exact ⟨Int.toNat m, by omega⟩
  have hNq : (N : ℚ) = 2 * (k : ℚ) := by
    have : N = 2 * (k : ℤ) := by omega
    exact_mod_cast this
  have hhalf : (N : ℚ) / 2 = (k : ℚ) := by rw [hNq]; ring
  unfold keepList
  refine List.map_congr_left ?_
  intro n hn
  have hnN : n < Int.toNat N := List.mem_range.mp hn
  refine decide_eq_decide.mpr ?_
  unfold freqs_all
  rw [hhalf]
  by_cases hlt : (n : ℚ) < (k : ℚ)
  · have hn2 : n < Int.toNat N / 2 := by
      have : n < k := by exact_mod_cast hlt
      omega
    simp only [if_pos hlt]
    constructor
    · intro _; exact hn2
    · intro _; exact mul_nonneg hdf.le (Nat.cast_nonneg n)
  · have hn2 : ¬ n < Int.toNat N / 2 := by
      have : ¬ n < k := fun hc => hlt (by exact_mod_cast hc)
      omega
    have hneg : (n : ℚ) - (N : ℚ) < 0 := by
      have : (n : ℚ) < (N : ℚ) := by
        have : n < Int.toNat N := hnN
        rw [hNq]
        exact_mod_cast (by omega : n < 2 * k)
      linarith
    simp only [if_neg hlt]
    constructor
    · intro hc
      exact absurd hc (not_le.mpr (mul_neg_of_pos_of_neg hdf hneg))
    · intro hc; exact absurd hc hn2

lemma maskFilter_map_map {β γ : Type} (pred : β → Bool) (f : β → γ) (l : List β) :
    maskFilter (l.map pred) (l.map f) = (l.filter pred).map f := by
  induction l with
  | nil => rfl
  | cons b bs ih =>
    cases hb : pred b <;> simp [maskFilter, List.filter_cons, hb, ih]

lemma filter_range_lt (m : ℕ) :
    ∀ L, m ≤ L → (List.range L).filter (fun n => decide (n < m)) = List.range m := by
  intro L
  induction L with
  | zero =>
    intro h
    have hm : m = 0 := Nat.le_zero.mp h
    subst hm
    rfl
  | succ L ih =>
    intro h
    rw [List.range_succ, List.filter_append]
    by_cases hLm : L < m
    · have hm : m = L + 1 := by omega
      subst hm
      rw [List.filter_eq_self.mpr ?_]
      · simp [List.range_succ]
      · intro a ha
        simp only [decide_eq_true_eq]
        have := List.mem_range.mp ha
        omega
    · have hm : m ≤ L := by omega
      rw [ih hm]
      simp [List.filter_cons, hLm]

/-! ## C2 -/

/-- C2 (amended): with settings as derived by `calc_settings` (even
positive N, positive df, `keepind` derived from them), `dofft` on an
N-sample window returns log10 of the (infinity-replaced) PSD over exactly
the bins `0 .. N/2 - 1` and over no other bins: the mask keeps precisely
the first `N/2` bins (the Nyquist bin `N/2` is mapped to the negative
frequency `-fs/2` and dropped), the output is literally the list of
`log10(PSD)` values of those bins in order, and it has exactly `N/2`
elements. -/
theorem dofft_bins_are_first_halfN (p : Proc) (x : List ℝ)
    (hN : Even p.N) (h0 : 0 < p.N) (hdf : 0 < p.df)
    (hkeep : p.keepind = keepList p.N p.df)
    (hx : x.length = Int.toNat p.N)
    (htap : 0 < p.alpha → p.taper.length = Int.toNat p.N ∧ p.taperlen = Int.toNat p.N) :
    keepList p.N p.df
      = (List.range (Int.toNat p.N)).map (fun n => decide (n < Int.toNat p.N / 2))
    ∧ (dofft p x).2
      = (List.range (Int.toNat p.N / 2)).map (fun k =>
          np_log10 (replaceInf (RFloat.val
            (Complex.abs ((dft (taperApply p x) k) ^ 2) / (p.df : ℝ)))))
    ∧ ((dofft p x).2).length = Int.toNat p.N / 2 := by
  have hmask := keepList_eq_first_half hN h0 hdf
  have hlen1 : (taperApply p x).length = Int.toNat p.N := by
    unfold taperApply taperAdjust
    split_ifs with ha hl
    · rcases htap ha with ⟨ht1, _⟩
      simp [zipMul, hx, ht1]
    · simp [zipMul, hx, tukey_length]
    · exact hx
  have hpsd : psdList p.df (taperApply p x)
      = (List.range (Int.toNat p.N)).map (fun k =>
          RFloat.val (Complex.abs ((dft (taperApply p x) k) ^ 2) / (p.df : ℝ))) := by
    unfold psdList
    rw [hlen1]
  have hout : (dofft p x).2
      = (List.range (Int.toNat p.N / 2)).map (fun k =>
          np_log10 (replaceInf (RFloat.val
            (Complex.abs ((dft (taperApply p x) k) ^ 2) / (p.df : ℝ))))) := by
    show (maskFilter p.keepind
        ((psdList p.df (taperApply p x)).map replaceInf)).map np_log10 = _
    rw [hkeep, hmask, hpsd, List.map_map, maskFilter_map_map,
      filter_range_lt _ _ (by omega), List.map_map]
    rfl
  refine ⟨hmask, hout, ?_⟩
  rw [hout, List.length_map, List.length_range]

/-! ## Concrete settings state used as input for several claims:
derived from fs = 8, fftwindow = 1/2, alpha = 0 (so N = 4, df = 2). -/

/-- Worker settings with fs = 8 Hz, fftwindow = 1/2 s, alpha = 0:
`calc_settings` derives N = 4 and df = 2. -/
noncomputable def pZero : Proc :=
  { fs := 8, fftwindow := 1/2, dt := 1, alpha := 0, N := 4, df := 2,
    taper := [], taperlen := 0, keepind := keepList 4 2, freqs := freqsList 4 2 }

/-- Worker state as constructed, before the first settings recomputation:
fs = 8 with window length 1/2 s and alpha = 0. -/
def pInit : Proc :=
  { fs := 8, fftwindow := 1/2, dt := 1, alpha := 0, N := 0, df := 0,
    taper := [], taperlen := 0, keepind := [], freqs := [] }

lemma roundHE_8_half : roundHE (((8 : ℕ) : ℚ) * (1/2)) = 4 := by
  unfold roundHE
  rw [show ((8 : ℕ) : ℚ) * (1/2) = ((4 : ℤ) : ℚ) by push_cast; norm_num]
  rw [Int.floor_intCast]
  norm_num

lemma calcN_8_half : calcN 8 (1/2) = 4 := by
  simp only [calcN, roundHE_8_half]
  decide

lemma calcDf_8_half : calcDf 8 (1/2) = 2 := by
  unfold calcDf
  rw [calcN_8_half]
  push_cast
  norm_num

/-- Recomputing settings from the constructed state yields exactly the
`pZero` settings. -/
lemma calc_settings_pInit : calc_settings pInit = pZero := by
  unfold calc_settings pInit pZero
  simp only [calcN_8_half, calcDf_8_half]
  norm_num

lemma keepList_4_2 : keepList 4 2 = [true, true, false, false] := by
  have h : List.range (Int.toNat 4) = [0, 1, 2, 3] := rfl
  unfold keepList
  rw [h]
  simp only [List.map]
  norm_num [freqs_all]

lemma dft_replicate_zero (L k : ℕ) : dft (List.replicate L (0 : ℝ)) k = 0 := by
  unfold dft
  apply Finset.sum_eq_zero
  intro n _
  have hg : (List.replicate L (0 : ℝ)).getD n 0 = 0 := by
    rcases lt_or_ge n L with h | h
    · simp [List.getD, List.getElem?_replicate, h]
    · simp [List.getD, List.getElem?_replicate, Nat.not_lt.mpr h,
        List.getElem?_eq_none, List.length_replicate]
  rw [hg]
  simp

/-- Shared evaluation: `dofft` at the all-zero 4-sample window under the
`pZero` settings returns `[-inf, -inf]` (log10 of exactly-zero power in
each of the two kept bins). -/
lemma dofft_pZero_zeros_eval :
    (dofft pZero (List.replicate 4 (0 : ℝ))).2 = [RFloat.neginf, RFloat.neginf] := by
  have hα : ¬ (0 : ℚ) < pZero.alpha := by norm_num [pZero]
  have hap : taperApply pZero (List.replicate 4 (0 : ℝ))
      = List.replicate 4 (0 : ℝ) := by
    unfold taperApply
    rw [if_neg hα]
  have hd : ∀ k, dft (List.replicate 4 (0 : ℝ)) k = 0 := dft_replicate_zero 4
  have hd4 : ∀ k, dft [(0 : ℝ), 0, 0, 0] k = 0 := fun k => hd k
  have hpsd : psdList pZero.df (taperApply pZero (List.replicate 4 (0 : ℝ)))
      = [RFloat.val 0, RFloat.val 0, RFloat.val 0, RFloat.val 0] := by
    rw [hap]
    unfold psdList
    rw [show List.range (List.replicate 4 (0 : ℝ)).length = [0, 1, 2, 3] from rfl]
    simp [hd, hd4]
  have hkeep : pZero.keepind = [true, true, false, false] := keepList_4_2
  unfold dofft
  rw [hpsd, hkeep]
  simp [replaceInf, np_isinf, maskFilter, np_log10]

/-- C2 counterexample: under valid derived settings (fs = 8, N = 4,
df = 2), `dofft` returns 2 = N/2 values, not N/2 + 1 = 3; the Nyquist
bin (index 2) is excluded by the mask. -/
theorem dofft_not_nyquist_inclusive_cex :
    ((dofft pZero (List.replicate 4 (0 : ℝ))).2).length = 2
    ∧ (2 : ℕ) ≠ 4 / 2 + 1
    ∧ keepList 4 2 = [true, true, false, false] := by
  refine ⟨?_, by norm_num, keepList_4_2⟩
  rw [dofft_pZero_zeros_eval]
  rfl

/-- C2 witness: the amended theorem instantiated at the concrete `pZero`
settings and the all-zero 4-sample window. -/
theorem dofft_bins_are_first_halfN_witness :
    keepList pZero.N pZero.df
      = (List.range (Int.toNat pZero.N)).map (fun n => decide (n < Int.toNat pZero.N / 2))
    ∧ (dofft pZero (List.replicate 4 (0 : ℝ))).2
      = (List.range (Int.toNat pZero.N / 2)).map (fun k =>
          np_log10 (replaceInf (RFloat.val
            (Complex.abs ((dft (taperApply pZero (List.replicate 4 (0 : ℝ))) k) ^ 2)
              / (pZero.df : ℝ)))))
    ∧ ((dofft pZero (List.replicate 4 (0 : ℝ))).2).length = Int.toNat pZero.N / 2 :=
  dofft_bins_are_first_halfN pZero (List.replicate 4 (0 : ℝ))
    ⟨2, rfl⟩ (by decide) two_pos rfl rfl
    (fun h => absurd h (lt_irrefl 0))

/-! ## C3 -/

/-- C3: the claim is right and the code is wrong.  `np.isinf(0.0)` is
false, so a bin with exactly zero power is not replaced by the 1e-8 floor,
and `np.log10` then produces -inf: at the all-zero window every returned
element is -inf, contradicting "no output element is -infinity". -/
theorem dofft_zero_window_neginf :
    calc_settings pInit = pZero
    ∧ (dofft pZero (List.replicate 4 (0 : ℝ))).2 = [RFloat.neginf, RFloat.neginf] :=
  ⟨calc_settings_pInit, dofft_pZero_zeros_eval⟩

/-! ## C10 -/

/-- C10: with fixed settings whose cached taper matches the input window
length (`taperlen = len(pcmdata)` whenever alpha > 0), `dofft` leaves the
whole worker state unchanged — in particular the cached taper and its
recorded length — and two successive calls on the same input return equal
outputs. -/
theorem dofft_pure_with_matching_taper (p : Proc) (x : List ℝ)
    (h : 0 < p.alpha → x.length = p.taperlen) :
    (dofft p x).1 = p ∧ (dofft ((dofft p x).1) x).2 = (dofft p x).2 := by
  have h1 : taperAdjust p x = p := by
    unfold taperAdjust
    split_ifs with ha hl
    · rfl
    · exact absurd (h ha) hl
    · rfl
  constructor
  · simpa [dofft] using h1
  · simp [dofft, h1]

/-- C10 witness: instantiated at the `pZero` settings (alpha = 0) and the
all-zero 4-sample window. -/
theorem dofft_pure_with_matching_taper_witness :
    (dofft pZero (List.replicate 4 (0 : ℝ))).1 = pZero
    ∧ (dofft ((dofft pZero (List.replicate 4 (0 : ℝ))).1)
          (List.replicate 4 (0 : ℝ))).2
        = (dofft pZero (List.replicate 4 (0 : ℝ))).2 :=
  dofft_pure_with_matching_taper pZero (List.replicate 4 (0 : ℝ))
    (fun h => absurd h (lt_irrefl 0))

/-! ## Termination and construction (AudioProcessor.terminate / __init__) -/

/-- The lifecycle fields of the worker touched by `terminate`, together
with the trace of `terminated` signal emissions. -/
structure TermState where
  reason : ℤ
  isrunning : Bool
  termEvents : List ℤ

/-- Source `AudioProcessor.terminate(reason)`, in source order:
`self.reason = reason` and `self.isrunning = False` run first; then, for a
device-backed worker only (`if not self.fromAudio:`), the resource-closing
block closes the recording WAV file and stops and closes the input stream.
That block can raise — e.g. an `AttributeError` when `self.stream` was
never created because the stream open failed, or an error closing an
already-closed stream — which aborts the call before the final
`self.signals.terminated.emit(self.tabID, reason)`.  `fromAudio` selects
the worker kind, `cleanupOk` is whether the resource-closing block
completes, and the returned Bool is whether an exception escaped the call
before the emit (the reason and isrunning writes persist either way). -/
def terminate (fromAudio cleanupOk : Bool) (st : TermState) (reason : ℤ) :
    TermState × Bool :=
  if fromAudio || cleanupOk then
    ({ reason := reason, isrunning := false,
       termEvents := st.termEvents ++ [reason] }, false)
  else
    ({ reason := reason, isrunning := false, termEvents := st.termEvents }, true)

/-- One `terminate` invocation as a plain state transition; the call data
is the reason together with whether the cleanup block completes. -/
def terminateCall (fromAudio : Bool) (st : TermState) (c : ℤ × Bool) : TermState :=
  (terminate fromAudio c.2 st c.1).1

/-- Outcome of `__init__` for a file-backed worker: lifecycle state,
number of spectral records emitted during construction, and whether an
exception escaped the constructor. -/
structure InitResult where
  st : TermState
  records : ℕ
  raised : Bool

/-- Source `__init__` for a file-backed source (`datasource[:3] == 'AAA'`).
`self.isrunning` starts false and `self.reason` starts 0; when the path
does not exist the constructor calls `terminate(1)` and the following
`shutil.copy` raises, so `self.isrunning = True` is never reached. -/
def initFile (fileExists : Bool) : InitResult :=
  if fileExists then
    { st := { reason := 0, isrunning := true, termEvents := [] },
      records := 0, raised := false }
  else
    { st := (terminate true true { reason := 0, isrunning := false, termEvents := [] } 1).1,
      records := 0, raised := true }

/-- The readiness barrier at the top of `run`: the cadence loop is entered
only when `self.isrunning` is set and `self.reason` is still falsy. -/
def runEntersRunning (st : TermState) : Bool :=
  st.isrunning && decide (st.reason = 0)

/-! ## C6 -/

/-- C6: constructing a file-backed worker on a nonexistent path terminates
it immediately with reason 1 (source-not-found), emits the terminated
notification with that reason, emits zero spectral records, and the
readiness barrier then prevents the worker from ever entering the Running
state. -/
theorem initFile_missing_terminates_source_not_found :
    (initFile false).st.reason = 1
    ∧ (initFile false).st.termEvents = [1]
    ∧ (initFile false).records = 0
    ∧ runEntersRunning (initFile false).st = false
    ∧ (initFile false).raised = true := by
  refine ⟨rfl, rfl, rfl, rfl, rfl⟩

/-! ## C8 -/

/-- C8 counterexample: on a file-backed worker a second `terminate` call
with a different reason overwrites the stored reason (the first write does
not win) and each of the two calls emits its own terminated notification
(two deliveries, not exactly one); and on a device-backed worker whose
stream was never opened, a `terminate` call raises in the resource-closing
block and delivers no notification at all. -/
theorem terminate_last_write_wins_cex :
    (terminateCall true (terminateCall true
        { reason := 0, isrunning := true, termEvents := [] } (0, true)) (4, true)).reason = 4
    ∧ (terminateCall true (terminateCall true
        { reason := 0, isrunning := true, termEvents := [] } (0, true)) (4, true)).reason ≠ 0
    ∧ (terminateCall true (terminateCall true
        { reason := 0, isrunning := true, termEvents := [] } (0, true)) (4, true)).termEvents
        = [0, 4]
    ∧ (terminateCall true (terminateCall true
        { reason := 0, isrunning := true, termEvents := [] } (0, true)) (4, true)).termEvents.length
        ≠ 1
    ∧ (terminate false false
        { reason := 0, isrunning := true, termEvents := [] } 2).1.termEvents = []
    ∧ (terminate false false
        { reason := 0, isrunning := true, termEvents := [] } 2).2 = true := by
  refine ⟨rfl, by decide, rfl, by decide, rfl, rfl⟩

lemma terminate_foldl_spec (fromAudio : Bool) (st : TermState)
    (calls : List (ℤ × Bool)) (h : calls ≠ []) :
    (List.foldl (terminateCall fromAudio) st calls).reason = (calls.getLast h).1
    ∧ (List.foldl (terminateCall fromAudio) st calls).isrunning = false
    ∧ (List.foldl (terminateCall fromAudio) st calls).termEvents.length
        = st.termEvents.length
          + (calls.filter (fun c => fromAudio || c.2)).length := by
  induction calls generalizing st with
  | nil => exact absurd rfl h
  | cons c cs ih =>
    cases cs with
    | nil =>
      cases hb : (fromAudio || c.2) <;>
        simp [terminateCall, terminate, hb, List.filter_cons]
    | cons c2 cs2 =>
      obtain ⟨h1, h2, h3⟩ := ih (terminateCall fromAudio st c) (by simp)
      refine ⟨?_, ?_, ?_⟩
      · rw [List.foldl_cons, h1]
        exact congrArg Prod.fst (List.getLast_cons (by simp)).symm
      · rw [List.foldl_cons]
        exact h2
      · rw [List.foldl_cons, h3]
        cases hb : (fromAudio || c.2)
        · simp [terminateCall, terminate, hb, List.filter_cons]
        · simp [terminateCall, terminate, hb, List.filter_cons]
          omega

/-- C8 (amended): `terminate` overwrites the stored reason on every call —
after any nonempty sequence of calls the stored reason is the last one
written, not the first — and emits one terminated notification per call
whose resource-closing block does not raise: always for file-backed
workers, and for device-backed workers only when the cleanup succeeds.
In particular a device-backed call without an open stream raises before
the emit and delivers no notification, so over a lifetime the sink
receives one notification per non-raising call (k for k file-worker
calls), rather than exactly one with the first write winning. -/
theorem terminate_overwrites_and_emits_each_call (fromAudio : Bool) (st : TermState)
    (calls : List (ℤ × Bool)) (h : calls ≠ []) :
    (List.foldl (terminateCall fromAudio) st calls).reason = (calls.getLast h).1
    ∧ (List.foldl (terminateCall fromAudio) st calls).isrunning = false
    ∧ (List.foldl (terminateCall fromAudio) st calls).termEvents.length
        = st.termEvents.length
          + (calls.filter (fun c => fromAudio || c.2)).length
    ∧ (∀ (st2 : TermState) (r : ℤ),
        (terminate false false st2 r).1.reason = r
        ∧ (terminate false false st2 r).1.termEvents = st2.termEvents
        ∧ (terminate false false st2 r).2 = true) := by
  obtain ⟨h1, h2, h3⟩ := terminate_foldl_spec fromAudio st calls h
  exact ⟨h1, h2, h3, fun st2 r => ⟨rfl, rfl, rfl⟩⟩

/-- C8 witness: the amended theorem on a device-backed worker for the call
sequence `terminate(2)` with no open stream (raises, no notification)
followed by a successful `terminate(0)`: final reason 0, exactly one
notification delivered. -/
theorem terminate_overwrites_witness :
    (List.foldl (terminateCall false)
        { reason := 0, isrunning := true, termEvents := [] }
        [(2, false), (0, true)]).reason = 0
    ∧ (List.foldl (terminateCall false)
        { reason := 0, isrunning := true, termEvents := [] }
        [(2, false), (0, true)]).termEvents.length = 1 := by
  obtain ⟨h1, _, h3, _⟩ := terminate_overwrites_and_emits_each_call false
    { reason := 0, isrunning := true, termEvents := [] }
    [(2, false), (0, true)] (by decide)
  exact ⟨h1.trans (by decide), h3.trans (by decide)⟩

/-! ## The cadence loop (AudioProcessor.run), one cycle -/

/-- What one cycle of the `run` loop does: emit a spectral record, skip
emission, or terminate with a reason. -/
inductive StepResult where
  | emit : ℕ → ℚ → StepResult
  | skip : StepResult
  | term : ℤ → StepResult
deriving DecidableEq

/-- Length of `self.sampletimes = np.arange(0, lensignal/fs, dt)`. -/
def sampletimesLen (lensignal fs : ℕ) (dt : ℚ) : ℕ :=
  if 0 < dt then Int.toNat ⌈((lensignal : ℚ) / (fs : ℚ)) / dt⌉ else 0

/-- The in-bounds test for a file-source window:
`ctrind - pmind >= 0 and ctrind + pmind < self.lensignal` with
`ctrind = int(np.round(ctime*fs))` and `pmind = int(N/2)` (N is always
even here, so the integer division is exact). -/
def fileWindowOK (lensignal fs : ℕ) (N : ℤ) (ctime : ℚ) : Prop :=
  0 ≤ roundHE (ctime * (fs : ℚ)) - N / 2
  ∧ roundHE (ctime * (fs : ℚ)) + N / 2 < (lensignal : ℤ)

instance (lensignal fs : ℕ) (N : ℤ) (ctime : ℚ) :
    Decidable (fileWindowOK lensignal fs N ctime) :=
  inferInstanceAs (Decidable (_ ∧ _))

/-- One cycle of the `run` loop for a file-backed source at iteration `i`:
past the sampling grid it calls `terminate(0)`; otherwise it reads the
window centered at `sampletimes[i] = i*dt` and either emits or, when the
window would run past an edge of the buffer, skips. -/
def fileStep (lensignal fs : ℕ) (N : ℤ) (dt : ℚ) (maxnum i : ℕ) : StepResult :=
  if i < maxnum then
    (if fileWindowOK lensignal fs N ((i : ℚ) * dt)
     then StepResult.emit i ((i : ℚ) * dt)
     else StepResult.skip)
  else StepResult.term 0

/-- The device-source read `np.array(self.audiostream[-self.N:])`: always
a value, never `None`. -/
def deviceRead (buf : List ℚ) (N : ℤ) : Option (List ℚ) := some (pyTail buf N)

/-- One cycle of the `run` loop for a device-backed source: the read never
returns `None`, so the `pcmdata is not None` guard always passes and a
record is emitted. -/
def deviceStep (buf : List ℚ) (N : ℤ) (i : ℕ) (ctime : ℚ) : StepResult :=
  match deviceRead buf N with
  | some _ => StepResult.emit i ctime
  | none => StepResult.skip

/-- The `(iteration, sample_time)` pairs of all records emitted over a
whole file-source run. -/
def fileEmitted (lensignal fs : ℕ) (N : ℤ) (dt : ℚ) : List (ℕ × ℚ) :=
  (List.range (sampletimesLen lensignal fs dt)).filterMap (fun i =>
    match fileStep lensignal fs N dt (sampletimesLen lensignal fs dt) i with
    | StepResult.emit j t => some (j, t)
    | _ => none)

/-- The `(iteration, sample_time)` pairs emitted by a device-source run of
`steps` cycles, whose sample times are wall-clock readings. -/
def deviceEmitted (clock : ℕ → ℚ) (steps : ℕ) : List (ℕ × ℚ) :=
  (List.range steps).map (fun i => (i, clock i))

/-- The rolling device buffer at construction:
`self.audiostream = [0]*100000`. -/
def initAudiostream : List ℚ := List.replicate 100000 0

/-! ## C4 -/

/-- C4 counterexample: a file-backed worker whose requested window runs
past the start of the buffer (first grid time of a 2 s file at fs = 8,
N = 4, dt = 1) skips the cycle and continues; it does not terminate. -/
theorem fileStep_skip_at_start_cex :
    fileStep 16 8 4 1 (sampletimesLen 16 8 1) 0 = StepResult.skip
    ∧ StepResult.skip ≠ StepResult.term 0 := by
  have hm : sampletimesLen 16 8 1 = 2 := by
    unfold sampletimesLen
    rw [if_pos (by norm_num)]
    rw [show (((16 : ℕ) : ℚ) / ((8 : ℕ) : ℚ)) / 1 = ((2 : ℤ) : ℚ) by push_cast; norm_num]
    rw [Int.ceil_intCast]
    rfl
  have hok : ¬ fileWindowOK 16 8 4 (((0 : ℕ) : ℚ) * 1) := by
    have hrnd : roundHE ((((0 : ℕ) : ℚ) * 1) * ((8 : ℕ) : ℚ)) = 0 := by
      rw [show (((0 : ℕ) : ℚ) * 1) * ((8 : ℕ) : ℚ) = 0 by push_cast; ring]
      norm_num [roundHE]
    unfold fileWindowOK
    rw [hrnd]
    decide
  refine ⟨?_, by decide⟩
  unfold fileStep
  rw [hm, if_pos (by norm_num : (0 : ℕ) < 2), if_neg hok]

/-- C4 (amended): in the Running state of a file-backed worker, the cycle
terminates with reason 0 (ok) exactly when the iteration index has
exhausted the sampling-time grid; a cycle whose window is unavailable (but
whose grid index is still in range) skips emission and continues; and a
device-backed cycle always finds a window and emits. -/
theorem fileStep_term_iff_grid_exhausted (lensignal fs : ℕ) (N : ℤ) (dt : ℚ)
    (maxnum i : ℕ) (buf : List ℚ) (N2 : ℤ) (i2 : ℕ) (t : ℚ) :
    (fileStep lensignal fs N dt maxnum i = StepResult.term 0 ↔ maxnum ≤ i)
    ∧ (fileStep lensignal fs N dt maxnum i = StepResult.skip
        ↔ (i < maxnum ∧ ¬ fileWindowOK lensignal fs N ((i : ℚ) * dt)))
    ∧ deviceStep buf N2 i2 t = StepResult.emit i2 t := by
  refine ⟨?_, ?_, rfl⟩
  · unfold fileStep
    split_ifs with h1 h2
    · simp
      omega
    · simp
      omega
    · simp
      omega
  · unfold fileStep
    split_ifs with h1 h2
    · simp [h1, h2]
    · simp [h1, h2]
    · simp
      omega

/-- C4 witness: the amended characterization applied at a concrete run
(fs = 8, N = 4, dt = 1, grid length 2) at an exhausted index, at an
in-range index, and at a concrete device cycle. -/
theorem fileStep_term_iff_witness :
    fileStep 16 8 4 1 2 2 = StepResult.term 0
    ∧ fileStep 16 8 4 1 2 0 ≠ StepResult.term 0
    ∧ deviceStep [] 6 1 2 = StepResult.emit 1 2 := by
  refine ⟨?_, ?_, ?_⟩
  · exact (fileStep_term_iff_grid_exhausted 16 8 4 1 2 2 [] 0 0 0).1.mpr (by decide)
  · intro hc
    exact absurd ((fileStep_term_iff_grid_exhausted 16 8 4 1 2 0 [] 0 0 0).1.mp hc)
      (by decide)
  · exact (fileStep_term_iff_grid_exhausted 16 8 4 1 2 0 [] 6 1 2).2.2

/-! ## C7 -/

/-- C7 counterexample: at construction the rolling buffer already holds
100000 zero samples, so the very first read — before any real sample has
arrived from the hardware callback — returns a window and the cycle emits
a record instead of skipping. -/
theorem deviceStep_emits_before_data_cex :
    deviceStep initAudiostream 4 0 0 = StepResult.emit 0 0
    ∧ StepResult.emit (0 : ℕ) (0 : ℚ) ≠ StepResult.skip :=
  ⟨rfl, by decide⟩

/-- C7 (amended): a device-backed cycle always emits — the read returns
the buffer tail unconditionally — and before any callback data arrives
that tail is a window of N zeros taken from the pre-initialized buffer. -/
theorem deviceStep_always_emits :
    (∀ (buf : List ℚ) (N : ℤ) (i : ℕ) (t : ℚ),
        deviceStep buf N i t = StepResult.emit i t)
    ∧ (∀ N : ℤ, 0 < N → N ≤ 100000 →
        pyTail initAudiostream N = List.replicate (Int.toNat N) 0) := by
  constructor
  · intro buf N i t
    rfl
  · intro N h1 h2
    unfold pyTail initAudiostream
    rw [if_neg (by omega)]
    rw [List.length_replicate, List.drop_replicate]
    congr 1
    omega

/-- C7 witness: the amended theorem applied at N = 6 on the
pre-initialized buffer. -/
theorem deviceStep_always_emits_witness :
    deviceStep initAudiostream 6 1 2 = StepResult.emit 1 2
    ∧ pyTail initAudiostream 6 = List.replicate (Int.toNat 6) 0 :=
  ⟨deviceStep_always_emits.1 initAudiostream 6 1 2,
   deviceStep_always_emits.2 6 (by decide) (by decide)⟩

/-! ## C9 -/

lemma fileStep_emit_inv {lensignal fs : ℕ} {N : ℤ} {dt : ℚ} {maxnum i j : ℕ}
    {t : ℚ} (h : fileStep lensignal fs N dt maxnum i = StepResult.emit j t) :
    j = i ∧ t = (i : ℚ) * dt := by
  unfold fileStep at h
  split_ifs at h
  · injection h with hj ht
    exact ⟨hj.symm, ht.symm⟩

/-- C9: within one run, the emitted records of a file-backed worker (for a
nonnegative cadence) and of a device-backed worker (under a monotone
wall clock) have strictly increasing iteration indices and non-decreasing
sample times; only window-unavailable cycles are missing from the file
list, and no cycle is missing from the device list. -/
theorem run_emits_ordered (lensignal fs : ℕ) (N : ℤ) (dt : ℚ)
    (clock : ℕ → ℚ) (steps : ℕ) (hdt : 0 ≤ dt) (hclock : Monotone clock) :
    (fileEmitted lensignal fs N dt).Pairwise (fun a b => a.1 < b.1 ∧ a.2 ≤ b.2)
    ∧ (deviceEmitted clock steps).Pairwise (fun a b => a.1 < b.1 ∧ a.2 ≤ b.2) := by
  constructor
  · unfold fileEmitted
    rw [List.pairwise_filterMap]
    refine List.Pairwise.imp ?_ (List.pairwise_lt_range _)
    intro a b hab p hp q hq
    cases hstep : fileStep lensignal fs N dt (sampletimesLen lensignal fs dt) a with
    | emit j t =>
      cases hstep2 : fileStep lensignal fs N dt (sampletimesLen lensignal fs dt) b with
      | emit j2 t2 =>
        rw [hstep] at hp
        rw [hstep2] at hq
        simp at hp hq
        obtain ⟨hj, ht⟩ := fileStep_emit_inv hstep
        obtain ⟨hj2, ht2⟩ := fileStep_emit_inv hstep2
        subst hp hq hj ht hj2 ht2
        refine ⟨hab, ?_⟩
        exact mul_le_mul_of_nonneg_right (by exact_mod_cast hab.le) hdt
      | skip => rw [hstep2] at hq; simp at hq
      | term r => rw [hstep2] at hq; simp at hq
    | skip => rw [hstep] at hp; simp at hp
    | term r => rw [hstep] at hp; simp at hp
  · unfold deviceEmitted
    rw [List.pairwise_map]
    refine List.Pairwise.imp ?_ (List.pairwise_lt_range _)
    intro a b hab
    exact ⟨hab, hclock hab.le⟩

/-- C9 witness: the ordering theorem at a concrete file run (fs = 8,
N = 4, dt = 1) and a concrete monotone clock over three device cycles. -/
theorem run_emits_ordered_witness :
    (fileEmitted 16 8 4 1).Pairwise (fun a b => a.1 < b.1 ∧ a.2 ≤ b.2)
    ∧ (deviceEmitted (fun i : ℕ => (i : ℚ)) 3).Pairwise
        (fun a b => a.1 < b.1 ∧ a.2 ≤ b.2) :=
  run_emits_ordered 16 8 4 1 (fun i : ℕ => (i : ℚ)) 3 (by decide) Nat.mono_cast

end PySpectrogram
